import Mathlib

/-!
Shallow embedding of the `whispers` SDR signal-processing pipeline, together with
theorems about the behaviour of its components.

Conventions used throughout:

* Python machine floats are modelled as exact rationals (`ℚ`); the embedded code
  paths use only field arithmetic and comparisons, on values where floating-point
  rounding is not load-bearing for the stated properties.
* Python `dict`s are modelled as insertion-ordered association lists, matching the
  language guarantee that iteration follows insertion order and that assigning to an
  existing key keeps its position.
* Exceptions are modelled with `Except`: an operation that can raise returns
  `Except PyExc _`.
* Complex IQ samples are modelled as opaque integer tokens (`IQ := Int`): the buffer
  and scanner code only move samples around and never compute with their values.
-/

unseal Rat.mul Rat.add Rat.sub Rat.inv List.merge List.mergeSort

namespace Whispers

/-- Integer tokens stand in for the `complex64` IQ samples: the embedded code only
moves samples around and never computes with them. -/
abbrev IQ := Int

/-- Python exception kinds that the embedded code can raise. -/
inductive PyExc where
  | keyError
  | valueError
deriving DecidableEq

deriving instance DecidableEq for Except

/-- Python `int(q)` applied to a rational: truncation toward zero. -/
def pyInt (q : ℚ) : ℤ := if 0 ≤ q then q.floor else -(Rat.floor (-q))

/-- Python `round(q)` applied to a rational: round half to even (banker's rounding);
`f % 2 = 0` tests evenness of the floor. -/
def pyRound (q : ℚ) : ℤ :=
  let f := q.floor
  let r := q - (f : ℚ)
  if r < 1/2 then f
  else if (1 : ℚ)/2 < r then f + 1
  else if f % 2 = 0 then f else f + 1

/-- Lookup in an insertion-ordered association list: Python `m.get(k)` /
`k in m` combined (`none` when the key is absent). -/
def dictGet {κ β : Type} [DecidableEq κ] : List (κ × β) → κ → Option β
  | [], _ => none
  | e :: m, k => if e.1 = k then some e.2 else dictGet m k

/-- Python `m[k]`: raises `KeyError` when the key is absent. -/
def dictGetE {κ β : Type} [DecidableEq κ] (m : List (κ × β)) (k : κ) : Except PyExc β :=
  match dictGet m k with
  | some v => .ok v
  | none => .error .keyError

/-- Python `m[k] = v`: overwrite in place when the key exists (keeping its position in
the iteration order), otherwise append the new binding at the end. -/
def dictSet {κ β : Type} [DecidableEq κ] : List (κ × β) → κ → β → List (κ × β)
  | [], k, v => [(k, v)]
  | e :: m, k, v => if e.1 = k then (k, v) :: m else e :: dictSet m k v

/-- Setting key `k` and reading key `k'` of an insertion-ordered association list. -/
theorem dictGet_dictSet {κ β : Type} [DecidableEq κ] (m : List (κ × β)) (k k' : κ)
    (v : β) : dictGet (dictSet m k v) k' = if k' = k then some v else dictGet m k' := by
  induction m with
  | nil =>
    by_cases h : k' = k
    · simp [dictGet, dictSet, h]
    · have h' : ¬ k = k' := fun hh => h hh.symm
      simp [dictGet, dictSet, h, h']
  | cons e m ih =>
    by_cases he : e.1 = k
    · simp only [dictSet, if_pos he]
      by_cases h : k' = k
      · simp [dictGet, h]
      · have h' : ¬ k = k' := fun hh => h hh.symm
        simp [dictGet, h, h', he]
    · simp only [dictSet, if_neg he]
      by_cases hk : e.1 = k'
      · have h : ¬ k' = k := fun hh => he (hh ▸ hk)
        simp [dictGet, hk, h]
      · simp [dictGet, hk, ih]

/-- Python `del m[k]`. -/
def dictDel {κ β : Type} [DecidableEq κ] (m : List (κ × β)) (k : κ) : List (κ × β) :=
  m.filter (fun e => decide (¬ e.1 = k))

/-- Python slice assignment `l[start : start + xs.length] = xs`; the embedded callers
always keep the slice in bounds. -/
def setSlice {α : Type} (l : List α) (start : ℕ) (xs : List α) : List α :=
  l.take start ++ xs ++ l.drop (start + xs.length)

/-! ## `app/core/buffer.py` — CircularIQBuffer -/

/-- State of `CircularIQBuffer` (src/app/core/buffer.py): a fixed-size ring of
samples, a write head and a count of valid samples. -/
structure CircularIQBuffer where
  sample_rate : ℤ
  buffer_size : ℕ
  buffer : List IQ
  write_pos : ℕ
  available : ℕ
deriving DecidableEq

/-- Constructor `CircularIQBuffer(sample_rate, duration_sec)`:
`sample_rate = int(sample_rate)`, `buffer_size = int(sample_rate * duration_sec)`,
zero-filled storage, `write_pos = 0`, `available = 0`. (Only nonnegative sizes are
meaningful; `np.zeros` rejects negative ones.) -/
def CircularIQBuffer.mk' (sample_rate duration_sec : ℚ) : CircularIQBuffer :=
  let rate := pyInt sample_rate
  let size := (pyInt ((rate : ℚ) * duration_sec)).toNat
  { sample_rate := rate
    buffer_size := size
    buffer := List.replicate size 0
    write_pos := 0
    available := 0 }

/-- `CircularIQBuffer.append` (buffer.py lines 33-69): writes the block starting at
`(write_pos + available) % buffer_size`, wrapping at the end of storage, then sets
`available = min(available + n, buffer_size)` and `write_pos` to the end of the newly
written data. A block longer than the buffer is first trimmed to its trailing
`buffer_size` samples with `available = buffer_size`, `write_pos = 0`. -/
def CircularIQBuffer.append (st : CircularIQBuffer) (iq_block : List IQ) :
    CircularIQBuffer :=
  let n := iq_block.length
  if n = 0 then st
  else
    let trimmed := st.buffer_size < n
    let block := if trimmed then iq_block.drop (n - st.buffer_size) else iq_block
    let n := if trimmed then st.buffer_size else n
    let available₀ := if trimmed then st.buffer_size else st.available
    let write_pos₀ := if trimmed then 0 else st.write_pos
    let start_pos := (write_pos₀ + available₀) % st.buffer_size
    let end_pos := (start_pos + n) % st.buffer_size
    let buf :=
      if start_pos + n ≤ st.buffer_size then
        setSlice st.buffer start_pos block
      else
        let first_part := st.buffer_size - start_pos
        setSlice (setSlice st.buffer start_pos (block.take first_part)) 0
          (block.drop first_part)
    { st with
        buffer := buf
        available := min (available₀ + n) st.buffer_size
        write_pos := end_pos }

/-- `CircularIQBuffer.extract_recent` (buffer.py lines 71-103):
`n = min(int(sample_rate * duration_sec), available)`; empty result when `n ≤ 0`;
otherwise reads `n` samples starting at `(write_pos + available - n) % buffer_size`,
concatenating tail-then-head when the window wraps. There is no failure path. -/
def CircularIQBuffer.extract_recent (st : CircularIQBuffer) (duration_sec : ℚ) :
    List IQ :=
  let req : ℤ := pyInt ((st.sample_rate : ℚ) * duration_sec)
  let n : ℤ := min req (st.available : ℤ)
  if n ≤ 0 then []
  else
    let n := n.toNat
    let start_pos := (st.write_pos + st.available - n) % st.buffer_size
    if start_pos + n ≤ st.buffer_size then (st.buffer.drop start_pos).take n
    else
      let second_part := n - (st.buffer_size - start_pos)
      (st.buffer.drop start_pos) ++ st.buffer.take second_part

/-- `CircularIQBuffer.clear` (buffer.py lines 105-111). -/
def CircularIQBuffer.clear (st : CircularIQBuffer) : CircularIQBuffer :=
  { st with
      buffer := List.replicate st.buffer_size 0
      write_pos := 0
      available := 0 }

/-- C1: the claim says `extract_recent` fails with an InsufficientData error when the
requested count exceeds `available`; in the code there is no failure path at all.
At a capacity-4 buffer holding 2 samples, a request for 3 samples (rate 1 Hz,
duration 3 s, so `int(sample_rate*duration) = 3 > available = 2`) silently returns a
length-2 sequence. -/
theorem C1_extract_recent_never_fails :
    pyInt ((((CircularIQBuffer.mk' 1 4).append [5, 7]).sample_rate : ℚ) * 3) = 3 ∧
    ((CircularIQBuffer.mk' 1 4).append [5, 7]).available = 2 ∧
    (((CircularIQBuffer.mk' 1 4).append [5, 7]).extract_recent 3).length = 2 := by
  decide

/-- C2: the claim says `extract_recent (k/Fs)` returns the last `k` appended samples;
after appending `[5, 7]` to a fresh capacity-4 buffer (rate 1 Hz), extracting the last
2 samples returns `[0, 0]` — stale zeros — instead of `[5, 7]`: `append` writes the
data at `(write_pos + available) % size` but then moves `write_pos` to the end of the
written data, so the very next read (and the next write) is misaligned. -/
theorem C2_buffer_read_misaligned :
    ((CircularIQBuffer.mk' 1 4).append [5, 7]).extract_recent 2 = [0, 0] ∧
    ([0, 0] : List IQ) ≠ [5, 7] := by
  decide

/-! ## `app/core/downconverter.py` — VirtualReceiver -/

/-- Constructor-derived state of `VirtualReceiver` (src/app/core/downconverter.py
lines 12-47). The FIR filter taps (`scipy.signal.firwin`, 101 taps) are
floating-point DSP data that no claim touches; they are not part of the model. -/
structure VirtualReceiver where
  freq_offset : ℚ
  input_sample_rate : ℚ
  output_sample_rate : ℚ
  decimation_factor : ℚ
deriving DecidableEq

/-- `VirtualReceiver.__init__`: computes `freq_offset = target_freq - center_freq` and
`decimation_factor = input_sample_rate / output_sample_rate`, and raises `ValueError`
("Output sample rate must be lower than input sample rate") exactly when
`decimation_factor < 1`. -/
def VirtualReceiver.mk' (center_freq target_freq input_sample_rate
    output_sample_rate : ℚ) : Except PyExc VirtualReceiver :=
  let freq_offset := target_freq - center_freq
  let decimation_factor := input_sample_rate / output_sample_rate
  if decimation_factor < 1 then .error .valueError
  else .ok { freq_offset, input_sample_rate, output_sample_rate, decimation_factor }

/-- C6 counterexample: the claim says construction with `output_sample_rate =
input_sample_rate` must fail with InvalidRate; with both rates 48000 the decimation
factor is `1`, the check `decimation_factor < 1` is false, and construction
succeeds. -/
theorem C6_counterexample :
    VirtualReceiver.mk' 0 0 48000 48000 =
      Except.ok ⟨0, 48000, 48000, 1⟩ := by
  decide

/-- C6 (amended): for a positive output rate, construction fails with the InvalidRate
`ValueError` if and only if `output_sample_rate` is strictly greater than
`input_sample_rate`; equal rates construct successfully. -/
theorem C6_invalid_rate_iff (center_freq target_freq input_sample_rate
    output_sample_rate : ℚ) (hout : 0 < output_sample_rate) :
    (VirtualReceiver.mk' center_freq target_freq input_sample_rate output_sample_rate =
        Except.error PyExc.valueError) ↔
      input_sample_rate < output_sample_rate := by
  unfold VirtualReceiver.mk'
  by_cases h : input_sample_rate / output_sample_rate < 1
  · rw [div_lt_one hout] at h
    simp [div_lt_one hout, h]
  · rw [div_lt_one hout] at h
    simp [div_lt_one hout, h]

/-- C6 witness: at input rate 1 and output rate 8 the theorem instantiates to
"construction fails iff 1 < 8". -/
theorem C6_invalid_rate_iff_witness :
    (VirtualReceiver.mk' 100 5 1 8 = Except.error PyExc.valueError) ↔ (1 : ℚ) < 8 :=
  C6_invalid_rate_iff 100 5 1 8 (by decide)

/-! ## `app/core/fft.py` — 3 dB bandwidth estimation -/

/-- Python `for i in range(...): if spectrum_db[i] < threshold: x = i; break`:
the first index in `idxs` whose spectrum value is below `threshold`. -/
def firstBelow (spectrum_db : List ℚ) (threshold : ℚ) (idxs : List ℕ) : Option ℕ :=
  idxs.find? (fun i => decide (spectrum_db.getD i 0 < threshold))

/-- `FFTProcessor._estimate_3db_bandwidth` (fft.py lines 94-132): threshold is
`peak − 3` dB; the left edge scans `range(max(0, peak_idx − search_window), peak_idx)`
(ascending, so starting at the bin farthest from the peak) and takes the first bin
below threshold, defaulting to `peak_idx`; the right edge scans
`range(peak_idx + 1, min(n, peak_idx + search_window + 1))` and takes the first bin
below threshold, defaulting to `peak_idx`; the result is `(right − left) ·
bin_width`. -/
def estimate_3db_bandwidth (spectrum_db : List ℚ) (peak_idx : ℕ) (bin_width : ℚ)
    (search_window : ℕ) : ℚ :=
  let peak_power := spectrum_db.getD peak_idx 0
  let threshold := peak_power - 3
  let n := spectrum_db.length
  let left := (firstBelow spectrum_db threshold
      (List.range' (peak_idx - search_window)
        (peak_idx - (peak_idx - search_window)))).getD peak_idx
  let stop := min n (peak_idx + search_window + 1)
  let right := (firstBelow spectrum_db threshold
      (List.range' (peak_idx + 1) (stop - (peak_idx + 1)))).getD peak_idx
  ((right : ℚ) - (left : ℚ)) * bin_width

/-- Modelled from the claim wording for C7 (spec §4.2): walk outward from the peak bin
on each side, nearest bin first, up to `search_window` bins; the first bin below
`peak_db − 3` on each side is the edge; clamp at the window edge when no crossing is
found; floor the result at `max(min_distance_hz, 10 · bin_width)`. -/
def claimedBandwidth (spectrum_db : List ℚ) (peak_idx : ℕ) (bin_width : ℚ)
    (search_window : ℕ) (min_distance_hz : ℚ) : ℚ :=
  let threshold := spectrum_db.getD peak_idx 0 - 3
  let n := spectrum_db.length
  let left := (firstBelow spectrum_db threshold
      ((List.range' (peak_idx - search_window)
        (peak_idx - (peak_idx - search_window))).reverse)).getD (peak_idx - search_window)
  let stop := min n (peak_idx + search_window + 1)
  let right := (firstBelow spectrum_db threshold
      (List.range' (peak_idx + 1) (stop - (peak_idx + 1)))).getD (stop - 1)
  max (((right : ℚ) - (left : ℚ)) * bin_width) (max min_distance_hz (10 * bin_width))

/-- Finding the first match in an ascending index range: a `some i` result is the
least index of `[s, s + len)` satisfying `f`, and a `none` result means no index of
the range satisfies `f`. -/
theorem find?_range'_first (f : ℕ → Bool) :
    ∀ len s : ℕ,
      (∀ i, (List.range' s len).find? f = some i →
          s ≤ i ∧ i < s + len ∧ f i = true ∧ ∀ j, s ≤ j → j < i → f j = false) ∧
      ((List.range' s len).find? f = none →
          ∀ j, s ≤ j → j < s + len → f j = false) := by
  intro len
  induction len with
  | zero =>
    intro s
    refine ⟨fun i h => by simp at h, fun _ j hj hj2 => absurd hj2 (by omega)⟩
  | succ m ih =>
    intro s
    obtain ⟨ihSome, ihNone⟩ := ih (s + 1)
    rw [List.range'_succ]
    by_cases hc : f s = true
    · refine ⟨fun i h => ?_, fun h => ?_⟩
      · rw [List.find?_cons_of_pos _ hc] at h
        obtain rfl : s = i := by injection h
        exact ⟨le_refl s, by omega, hc, fun j hj hj2 => absurd hj2 (by omega)⟩
      · rw [List.find?_cons_of_pos _ hc] at h
        exact absurd h (by simp)
    · have hc' : f s = false := by revert hc; cases f s <;> simp
      refine ⟨fun i h => ?_, fun h j hj hj2 => ?_⟩
      · rw [List.find?_cons_of_neg _ (by simp [hc'])] at h
        obtain ⟨h1, h2, h3, h4⟩ := ihSome i h
        refine ⟨by omega, by omega, h3, fun j hj hj2 => ?_⟩
        rcases Nat.eq_or_lt_of_le hj with rfl | hlt
        · exact hc'
        · exact h4 j (by omega) hj2
      · rw [List.find?_cons_of_neg _ (by simp [hc'])] at h
        rcases Nat.eq_or_lt_of_le hj with rfl | hlt
        · exact hc'
        · exact ihNone h j (by omega) (by omega)

/-- C7 (amended): the estimate returned for peak bin `p`, window `w`, bin width `bw`
equals `(r − l) · bw` where the left edge `l` is the first bin at or after
`max(0, p − w)` — the bin farthest from the peak, not the nearest — that is below
`peak − 3` dB (the peak bin itself if none is), and the right edge `r` is the first
bin after the peak below `peak − 3` dB within the window (the peak bin itself if none
is, not the window edge); no minimum floor is applied. -/
theorem C7_amended (sp : List ℚ) (p w : ℕ) (bw : ℚ) :
    ∃ l r : ℕ,
      estimate_3db_bandwidth sp p bw w = ((r : ℚ) - (l : ℚ)) * bw ∧
      l ≤ p ∧ p ≤ r ∧ r < p + w + 1 ∧
      ((sp.getD l 0 < sp.getD p 0 - 3 ∧ p - w ≤ l ∧ l < p ∧
          (∀ j, p - w ≤ j → j < l → ¬ sp.getD j 0 < sp.getD p 0 - 3)) ∨
        (l = p ∧ ∀ j, p - w ≤ j → j < p → ¬ sp.getD j 0 < sp.getD p 0 - 3)) ∧
      ((sp.getD r 0 < sp.getD p 0 - 3 ∧ p + 1 ≤ r ∧ r < min sp.length (p + w + 1) ∧
          (∀ j, p + 1 ≤ j → j < r → ¬ sp.getD j 0 < sp.getD p 0 - 3)) ∨
        (r = p ∧ ∀ j, p + 1 ≤ j → j < min sp.length (p + w + 1) →
            ¬ sp.getD j 0 < sp.getD p 0 - 3)) := by
  have hL := find?_range'_first (fun i => decide (sp.getD i 0 < sp.getD p 0 - 3))
    (p - (p - w)) (p - w)
  have hR := find?_range'_first (fun i => decide (sp.getD i 0 < sp.getD p 0 - 3))
    (min sp.length (p + w + 1) - (p + 1)) (p + 1)
  rcases hfl : (List.range' (p - w) (p - (p - w))).find?
      (fun i => decide (sp.getD i 0 < sp.getD p 0 - 3)) with _ | l
  · rcases hfr : (List.range' (p + 1) (min sp.length (p + w + 1) - (p + 1))).find?
        (fun i => decide (sp.getD i 0 < sp.getD p 0 - 3)) with _ | r
    · refine ⟨p, p, ?_, le_refl p, le_refl p, by omega, ?_, ?_⟩
      · simp only [estimate_3db_bandwidth, firstBelow]
        rw [hfl, hfr]
        rfl
      · exact Or.inr ⟨rfl, fun j hj hj2 => by
          simpa using hL.2 hfl j hj (by omega)⟩
      · exact Or.inr ⟨rfl, fun j hj hj2 => by
          simpa using hR.2 hfr j hj (by omega)⟩
    · obtain ⟨h1, h2, h3, h4⟩ := hR.1 r hfr
      refine ⟨p, r, ?_, le_refl p, by omega, by omega, ?_, ?_⟩
      · simp only [estimate_3db_bandwidth, firstBelow]
        rw [hfl, hfr]
        rfl
      · exact Or.inr ⟨rfl, fun j hj hj2 => by
          simpa using hL.2 hfl j hj (by omega)⟩
      · refine Or.inl ⟨by simpa using h3, h1, by omega, fun j hj hj2 => ?_⟩
        simpa using h4 j hj hj2
  · obtain ⟨h1, h2, h3, h4⟩ := hL.1 l hfl
    rcases hfr : (List.range' (p + 1) (min sp.length (p + w + 1) - (p + 1))).find?
        (fun i => decide (sp.getD i 0 < sp.getD p 0 - 3)) with _ | r
    · refine ⟨l, p, ?_, by omega, le_refl p, by omega, ?_, ?_⟩
      · simp only [estimate_3db_bandwidth, firstBelow]
        rw [hfl, hfr]
        rfl
      · refine Or.inl ⟨by simpa using h3, by omega, by omega, fun j hj hj2 => ?_⟩
        simpa using h4 j (by omega) hj2
      · exact Or.inr ⟨rfl, fun j hj hj2 => by
          simpa using hR.2 hfr j hj (by omega)⟩
    · obtain ⟨g1, g2, g3, g4⟩ := hR.1 r hfr
      refine ⟨l, r, ?_, by omega, by omega, by omega, ?_, ?_⟩
      · simp only [estimate_3db_bandwidth, firstBelow]
        rw [hfl, hfr]
        rfl
      · refine Or.inl ⟨by simpa using h3, by omega, by omega, fun j hj hj2 => ?_⟩
        simpa using h4 j (by omega) hj2
      · refine Or.inl ⟨by simpa using g3, g1, by omega, fun j hj hj2 => ?_⟩
        simpa using g4 j hj hj2

/-- C7 counterexample: on the dB spectrum [0, 10, 0, 100] with peak bin 3, bin width
1 Hz and `min_distance_hz = 6` (so `search_window = int(0.5 · 6 / 1) = 3`), the code
returns 3 Hz (left edge is bin 0, the crossing farthest from the peak; no floor),
while the claimed rule gives 10 Hz (nearest crossing at bin 2, floored at
`max(6, 10·1)`). -/
theorem C7_counterexample :
    pyInt ((1 : ℚ)/2 * 6 / 1) = 3 ∧
    estimate_3db_bandwidth [0, 10, 0, 100] 3 1 3 = 3 ∧
    claimedBandwidth [0, 10, 0, 100] 3 1 3 6 = 10 ∧
    (3 : ℚ) ≠ 10 := by
  decide

/-! ## `app/filters/threshold.py` — ThresholdPeakDetector -/

/-- Peak record produced by `ThresholdPeakDetector.detect_peaks_with_index`. -/
structure Peak where
  frequency : ℚ
  power_db : ℚ
  index : ℕ
deriving DecidableEq

/-- Parameters of `ThresholdPeakDetector` (src/app/filters/threshold.py). -/
structure ThresholdPeakDetector where
  offset_db : ℚ
  min_distance_hz : ℚ
deriving DecidableEq

/-- `np.median` of a list: middle element of the ascending sort for odd length,
average of the two middle elements for even length (callers never pass the empty
list, on which `np.median` is NaN). -/
def npMedian (l : List ℚ) : ℚ :=
  let s := l.mergeSort (fun a b => decide (a ≤ b))
  let n := l.length
  if n % 2 = 1 then s.getD (n / 2) 0
  else (s.getD (n / 2 - 1) 0 + s.getD (n / 2) 0) / 2

/-- Candidate test of `detect_peaks_with_index` (threshold.py lines 70-87): above
threshold and a strict local maximum, comparing only the existing neighbour at the
endpoints; a length-1 spectrum needs only the threshold test. -/
def isCandidate (s : List ℚ) (threshold : ℚ) (i : ℕ) : Bool :=
  let n := s.length
  if i = 0 then
    if 1 < n then
      decide (threshold < s.getD 0 0) && decide (s.getD 1 0 < s.getD 0 0)
    else decide (n = 1) && decide (threshold < s.getD 0 0)
  else if i = n - 1 then
    decide (threshold < s.getD i 0) && decide (s.getD (i - 1) 0 < s.getD i 0)
  else
    decide (threshold < s.getD i 0) && decide (s.getD (i - 1) 0 < s.getD i 0) &&
      decide (s.getD (i + 1) 0 < s.getD i 0)

/-- Candidate collection loop of `detect_peaks_with_index`: all candidate indices in
ascending order. -/
def candidateIndices (s : List ℚ) (threshold : ℚ) : List ℕ :=
  (List.range s.length).filter (fun i => isCandidate s threshold i)

/-- Non-maximum suppression loop of `detect_peaks_with_index` (threshold.py lines
93-110): iterate the candidates in the given order; accept a candidate exactly when
no previously accepted frequency is within `min_distance_hz`, accumulating the
accepted frequencies. -/
def nms (freqs s : List ℚ) (min_distance_hz : ℚ) :
    List ℕ → List ℚ → List Peak
  | [], _ => []
  | i :: rest, accepted_freqs =>
    let freq := freqs.getD i 0
    let too_close :=
      accepted_freqs.any (fun af => decide (|freq - af| < min_distance_hz))
    if too_close then nms freqs s min_distance_hz rest accepted_freqs
    else
      { frequency := freq, power_db := s.getD i 0, index := i } ::
        nms freqs s min_distance_hz rest (accepted_freqs ++ [freq])

/-- `ThresholdPeakDetector.detect_peaks_with_index` (threshold.py lines 47-114):
empty spectrum gives no peaks; otherwise `threshold = median + offset_db`, candidates
are the above-threshold local maxima, sorted by descending power (stably, mirroring
`list.sort(key=..., reverse=True)`), filtered by non-maximum suppression, and the
accepted peaks are finally sorted by ascending frequency. -/
def ThresholdPeakDetector.detect_peaks_with_index (det : ThresholdPeakDetector)
    (freqs spectrum_db : List ℚ) : List Peak :=
  if spectrum_db.length = 0 then []
  else
    let threshold := npMedian spectrum_db + det.offset_db
    let candidates := candidateIndices spectrum_db threshold
    let sortedCands := candidates.mergeSort
      (fun i j => decide (spectrum_db.getD j 0 ≤ spectrum_db.getD i 0))
    let peaks := nms freqs spectrum_db det.min_distance_hz sortedCands []
    peaks.mergeSort (fun p q => decide (p.frequency ≤ q.frequency))

/-- Every peak accepted by the NMS loop is at least `min_distance_hz` away from every
frequency already accepted when the loop started. -/
theorem nms_far_from_acc (freqs s : List ℚ) (d : ℚ) :
    ∀ (cands : List ℕ) (acc : List ℚ),
      ∀ p ∈ nms freqs s d cands acc, ∀ af ∈ acc, d ≤ |p.frequency - af| := by
  intro cands
  induction cands with
  | nil => intro acc p hp; simp [nms] at hp
  | cons i rest ih =>
    intro acc p hp af haf
    simp only [nms] at hp
    by_cases hb : (acc.any fun af => decide (|freqs.getD i 0 - af| < d)) = true
    · rw [if_pos hb] at hp
      exact ih acc p hp af haf
    · rw [if_neg hb] at hp
      rcases List.mem_cons.mp hp with rfl | hp'
      · have hnot := List.any_eq_true.not.mp hb
        push_neg at hnot
        have h2 := hnot af haf
        simp only [ne_eq, decide_eq_true_eq] at h2
        simpa using not_lt.mp h2
      · exact ih (acc ++ [freqs.getD i 0]) p hp' af (List.mem_append_left _ haf)

/-- The peaks accepted by the NMS loop are pairwise at least `min_distance_hz`
apart. -/
theorem nms_pairwise (freqs s : List ℚ) (d : ℚ) :
    ∀ (cands : List ℕ) (acc : List ℚ),
      (nms freqs s d cands acc).Pairwise
        (fun p q => d ≤ |p.frequency - q.frequency|) := by
  intro cands
  induction cands with
  | nil => intro acc; simp [nms]
  | cons i rest ih =>
    intro acc
    simp only [nms]
    by_cases hb : (acc.any fun af => decide (|freqs.getD i 0 - af| < d)) = true
    · rw [if_pos hb]; exact ih acc
    · rw [if_neg hb]
      refine List.Pairwise.cons (fun q hq => ?_) (ih (acc ++ [freqs.getD i 0]))
      have := nms_far_from_acc freqs s d rest (acc ++ [freqs.getD i 0]) q hq
        (freqs.getD i 0) (List.mem_append_right _ (List.mem_singleton_self _))
      simpa [abs_sub_comm] using this

/-- A candidate that the NMS loop does not accept is either within
`min_distance_hz` of a frequency that was already accepted when the loop started, or
within `min_distance_hz` of an accepted peak of power at least its own (the
candidate list being sorted by descending power). -/
theorem nms_rejected (freqs s : List ℚ) (d : ℚ) :
    ∀ (cands : List ℕ) (acc : List ℚ),
      cands.Pairwise (fun i j => s.getD j 0 ≤ s.getD i 0) →
      ∀ i ∈ cands, (∀ p ∈ nms freqs s d cands acc, p.index ≠ i) →
        (∃ af ∈ acc, |freqs.getD i 0 - af| < d) ∨
          ∃ p ∈ nms freqs s d cands acc,
            |freqs.getD i 0 - p.frequency| < d ∧ s.getD i 0 ≤ p.power_db := by
  intro cands
  induction cands with
  | nil => intro acc _ i hi; simp at hi
  | cons j rest ih =>
    intro acc hsorted i hi hrej
    rw [List.pairwise_cons] at hsorted
    obtain ⟨hj, hrest⟩ := hsorted
    simp only [nms] at hrej ⊢
    by_cases hb : (acc.any fun af => decide (|freqs.getD j 0 - af| < d)) = true
    · rw [if_pos hb] at hrej ⊢
      rcases List.mem_cons.mp hi with rfl | hi'
      · left
        obtain ⟨af, haf, hlt⟩ := List.any_eq_true.mp hb
        exact ⟨af, haf, by simpa using hlt⟩
      · exact ih acc hrest i hi' hrej
    · rw [if_neg hb] at hrej ⊢
      rcases List.mem_cons.mp hi with rfl | hi'
      · exact absurd rfl (hrej _ (List.mem_cons_self _ _))
      · have hrej' : ∀ p ∈ nms freqs s d rest (acc ++ [freqs.getD j 0]),
            p.index ≠ i := fun p hp => hrej p (List.mem_cons_of_mem _ hp)
        rcases ih (acc ++ [freqs.getD j 0]) hrest i hi' hrej' with
          ⟨af, haf, hlt⟩ | ⟨p, hp, h1, h2⟩
        · rcases List.mem_append.mp haf with h | h
          · exact Or.inl ⟨af, h, hlt⟩
          · right
            refine ⟨⟨freqs.getD j 0, s.getD j 0, j⟩, List.mem_cons_self _ _, ?_,
              hj i hi'⟩
            simpa [List.mem_singleton.mp h] using hlt
        · exact Or.inr ⟨p, List.mem_cons_of_mem _ hp, h1, h2⟩

/-- C5: (i) no two peaks returned by the detector lie within `min_distance_hz` of
each other, and (ii) every above-threshold local-maximum candidate that is not
returned lies within `min_distance_hz` of some returned peak whose power is at least
the candidate's. -/
theorem C5_nms_spacing (det : ThresholdPeakDetector) (freqs spectrum_db : List ℚ) :
    (det.detect_peaks_with_index freqs spectrum_db).Pairwise
      (fun p q => det.min_distance_hz ≤ |p.frequency - q.frequency|) ∧
    (∀ i ∈ candidateIndices spectrum_db (npMedian spectrum_db + det.offset_db),
      (∀ p ∈ det.detect_peaks_with_index freqs spectrum_db, p.index ≠ i) →
        ∃ p ∈ det.detect_peaks_with_index freqs spectrum_db,
          |freqs.getD i 0 - p.frequency| < det.min_distance_hz ∧
            spectrum_db.getD i 0 ≤ p.power_db) := by
  by_cases hlen : spectrum_db.length = 0
  · constructor
    · simp [ThresholdPeakDetector.detect_peaks_with_index, hlen]
    · intro i hi
      rcases List.length_eq_zero.mp hlen with rfl
      simp [candidateIndices] at hi
  · have hsym : ∀ {p q : Peak},
        det.min_distance_hz ≤ |p.frequency - q.frequency| →
          det.min_distance_hz ≤ |q.frequency - p.frequency| := by
      intro p q h
      rwa [abs_sub_comm]
    have hperm := List.mergeSort_perm
      (nms freqs spectrum_db det.min_distance_hz
        ((candidateIndices spectrum_db (npMedian spectrum_db + det.offset_db)).mergeSort
          (fun i j => decide (spectrum_db.getD j 0 ≤ spectrum_db.getD i 0))) [])
      (fun p q => decide (p.frequency ≤ q.frequency))
    have hout : det.detect_peaks_with_index freqs spectrum_db =
        (nms freqs spectrum_db det.min_distance_hz
          ((candidateIndices spectrum_db
              (npMedian spectrum_db + det.offset_db)).mergeSort
            (fun i j => decide (spectrum_db.getD j 0 ≤ spectrum_db.getD i 0))) []).mergeSort
          (fun p q => decide (p.frequency ≤ q.frequency)) := by
      unfold ThresholdPeakDetector.detect_peaks_with_index
      rw [if_neg hlen]
    have hsortedCands : ((candidateIndices spectrum_db
          (npMedian spectrum_db + det.offset_db)).mergeSort
        (fun i j => decide (spectrum_db.getD j 0 ≤ spectrum_db.getD i 0))).Pairwise
        (fun i j => spectrum_db.getD j 0 ≤ spectrum_db.getD i 0) := by
      have := @List.sorted_mergeSort ℕ
        (fun i j => decide (spectrum_db.getD j 0 ≤ spectrum_db.getD i 0))
        (fun a b c hab hbc => by
          simp only [decide_eq_true_eq] at hab hbc ⊢
          exact le_trans hbc hab)
        (fun a b => by
          simp only [Bool.or_eq_true, decide_eq_true_eq]
          exact le_total (spectrum_db.getD b 0) (spectrum_db.getD a 0))
        (candidateIndices spectrum_db (npMedian spectrum_db + det.offset_db))
      exact this.imp (fun h => by simpa using h)
    constructor
    · rw [hout]
      exact ((hperm.pairwise_iff hsym).mpr
        (nms_pairwise freqs spectrum_db det.min_distance_hz _ []))
    · intro i hi hrej
      have hi' : i ∈ (candidateIndices spectrum_db
          (npMedian spectrum_db + det.offset_db)).mergeSort
          (fun i j => decide (spectrum_db.getD j 0 ≤ spectrum_db.getD i 0)) := by
        rw [List.mem_mergeSort]; exact hi
      have hrej' : ∀ p ∈ nms freqs spectrum_db det.min_distance_hz
          ((candidateIndices spectrum_db
              (npMedian spectrum_db + det.offset_db)).mergeSort
            (fun i j => decide (spectrum_db.getD j 0 ≤ spectrum_db.getD i 0))) [],
          p.index ≠ i := by
        intro p hp
        refine hrej p ?_
        rw [hout, List.mem_mergeSort]
        exact hp
      rcases nms_rejected freqs spectrum_db det.min_distance_hz _ [] hsortedCands i
          hi' hrej' with ⟨af, haf, _⟩ | ⟨p, hp, h1, h2⟩
      · exact absurd haf (List.not_mem_nil af)
      · refine ⟨p, ?_, h1, h2⟩
        rw [hout, List.mem_mergeSort]
        exact hp

/-- C5 witness: on the spectrum [0, 50, 0, 60, 0] with frequencies
[0, 1000, 2000, 3000, 4000], threshold offset 10 dB and minimum spacing 5000 Hz,
candidate bin 1 (50 dB) is suppressed, and the theorem yields the accepted bin-3 peak
(3000 Hz, 60 dB) within 5000 Hz and at least as strong. -/
theorem C5_nms_spacing_witness :
    1 ∈ candidateIndices [0, 50, 0, 60, 0] (npMedian [0, 50, 0, 60, 0] + 10) ∧
    (∀ p ∈ ThresholdPeakDetector.detect_peaks_with_index ⟨10, 5000⟩
        [0, 1000, 2000, 3000, 4000] [0, 50, 0, 60, 0], p.index ≠ 1) ∧
    ∃ p ∈ ThresholdPeakDetector.detect_peaks_with_index ⟨10, 5000⟩
        [0, 1000, 2000, 3000, 4000] [0, 50, 0, 60, 0],
      |([0, 1000, 2000, 3000, 4000] : List ℚ).getD 1 0 - p.frequency| < 5000 ∧
        ([0, 50, 0, 60, 0] : List ℚ).getD 1 0 ≤ p.power_db :=
  ⟨by decide, by decide,
    (C5_nms_spacing ⟨10, 5000⟩ [0, 1000, 2000, 3000, 4000] [0, 50, 0, 60, 0]).2 1
      (by decide) (by decide)⟩

/-! ## `app/core/peak_tracker.py` — PeakTracker -/

/-- Region record produced by `FFTProcessor.extract_peak_regions` (fft.py lines
85-90) and consumed by the tracker and the scan loop. -/
structure Region where
  frequency : ℚ
  power_db : ℚ
  index : ℕ
  bandwidth : ℚ
deriving DecidableEq

/-- State of `PeakTracker` (src/app/core/peak_tracker.py): parameters and the
insertion-ordered history `dict` from integer-rounded frequency buckets to detection
timestamps. -/
structure PeakTracker where
  min_hits : ℕ
  window_sec : ℚ
  history : List (ℤ × List ℚ)
deriving DecidableEq

/-- Step 1 of `update_and_filter` (peak_tracker.py lines 47-53): deduplicate the
detected peaks by rounded frequency bucket, keeping the strongest per bucket, in an
insertion-ordered `dict`. -/
def dedupByBucket : List Region → List (ℤ × Region) → List (ℤ × Region)
  | [], cur => cur
  | peak :: rest, cur =>
    let b := pyRound peak.frequency
    match dictGet cur b with
    | none => dedupByBucket rest (dictSet cur b peak)
    | some q =>
      if q.power_db < peak.power_db then dedupByBucket rest (dictSet cur b peak)
      else dedupByBucket rest cur

/-- Step 2 of `update_and_filter` (peak_tracker.py lines 55-57): append `now` to the
history of each currently detected bucket (`defaultdict(list)` semantics). -/
def recordHits (now : ℚ) : List (ℤ × Region) → List (ℤ × List ℚ) → List (ℤ × List ℚ)
  | [], h => h
  | (b, _) :: rest, h => recordHits now rest (dictSet h b ((dictGet h b).getD [] ++ [now]))

/-- Step 3 of `update_and_filter` (peak_tracker.py lines 59-74): iterate a snapshot
of the history items; keep only timestamps within the window, deleting buckets that
become empty, and collect buckets with at least `min_hits` recent timestamps. Python
collects the stable buckets into a `set`; the model keeps them as a list in the
iteration order of the snapshot (CPython guarantees no particular set order). -/
def pruneAndCollect (now window : ℚ) (min_hits : ℕ) :
    List (ℤ × List ℚ) → List (ℤ × List ℚ) → List ℤ → List (ℤ × List ℚ) × List ℤ
  | [], h, stable => (h, stable)
  | (b, ts) :: rest, h, stable =>
    let recent := ts.filter (fun t => decide (now - t ≤ window))
    if recent.isEmpty then pruneAndCollect now window min_hits rest (dictDel h b) stable
    else
      let h' := dictSet h b recent
      if min_hits ≤ recent.length then
        pruneAndCollect now window min_hits rest h' (stable ++ [b])
      else pruneAndCollect now window min_hits rest h' stable

/-- Step 4 of `update_and_filter` (peak_tracker.py lines 76-79): the stable buckets'
current peaks, in stable-bucket iteration order. -/
def collectStable (cur : List (ℤ × Region)) (stable : List ℤ) : List Region :=
  stable.filterMap (fun b => dictGet cur b)

/-- `PeakTracker.update_and_filter` (peak_tracker.py lines 31-81), with
`time.time()` passed in as `now`: returns the updated tracker and the stable peaks.
No sorting of the returned list takes place. -/
def PeakTracker.update_and_filter (tr : PeakTracker) (now : ℚ)
    (detected_peaks : List Region) : PeakTracker × List Region :=
  let cur := dedupByBucket detected_peaks []
  let h2 := recordHits now cur tr.history
  let res := pruneAndCollect now tr.window_sec tr.min_hits h2 h2 []
  ({ tr with history := res.1 }, collectStable cur res.2)

/-- `PeakTracker.clear` (peak_tracker.py lines 83-89). -/
def PeakTracker.clear (tr : PeakTracker) : PeakTracker :=
  { tr with history := [] }

/-- A bucket of the deduplication `dict` always holds one of the detected peaks (or a
peak that was already in the accumulator). -/
theorem dedupByBucket_mem (detected : List Region) :
    ∀ (cur : List (ℤ × Region)) (b : ℤ) (r : Region),
      dictGet (dedupByBucket detected cur) b = some r →
        r ∈ detected ∨ dictGet cur b = some r := by
  induction detected with
  | nil => intro cur b r h; exact Or.inr h
  | cons peak rest ih =>
    intro cur b r h
    simp only [dedupByBucket] at h
    rcases hg : dictGet cur (pyRound peak.frequency) with _ | q
    · rw [hg] at h
      rcases ih (dictSet cur (pyRound peak.frequency) peak) b r h with h' | h'
      · exact Or.inl (List.mem_cons_of_mem _ h')
      · rw [dictGet_dictSet] at h'
        by_cases hb : b = pyRound peak.frequency
        · rw [if_pos hb] at h'
          exact Or.inl (by simp [← Option.some_inj.mp h'])
        · rw [if_neg hb] at h'
          exact Or.inr h'
    · rw [hg] at h
      by_cases hq : q.power_db < peak.power_db
      · have h2 : dictGet (dedupByBucket rest
            (dictSet cur (pyRound peak.frequency) peak)) b = some r := by
          rw [← h]
          simp only [hq, if_true]
        rcases ih (dictSet cur (pyRound peak.frequency) peak) b r h2 with h' | h'
        · exact Or.inl (List.mem_cons_of_mem _ h')
        · rw [dictGet_dictSet] at h'
          by_cases hb : b = pyRound peak.frequency
          · rw [if_pos hb] at h'
            exact Or.inl (by simp [← Option.some_inj.mp h'])
          · rw [if_neg hb] at h'
            exact Or.inr h'
      · have h2 : dictGet (dedupByBucket rest cur) b = some r := by
          rw [← h]
          simp only [hq, if_false]
        rcases ih cur b r h2 with h' | h'
        · exact Or.inl (List.mem_cons_of_mem _ h')
        · exact Or.inr h'

/-- C8 counterexample: on a fresh tracker with `min_hits = 1`, the input peaks at
9 Hz (1 dB) and 1 Hz (2 dB) are both stable, and `update_and_filter` returns them in
bucket-iteration order [9, 1] — not sorted by ascending frequency. -/
theorem C8_counterexample :
    ((PeakTracker.update_and_filter ⟨1, 10, []⟩ 0
        [⟨9, 1, 0, 0⟩, ⟨1, 2, 1, 0⟩]).2.map Region.frequency = [9, 1]) ∧
    ¬ List.Sorted (· ≤ ·)
      ((PeakTracker.update_and_filter ⟨1, 10, []⟩ 0
        [⟨9, 1, 0, 0⟩, ⟨1, 2, 1, 0⟩]).2.map Region.frequency) := by
  decide

/-- C8 (amended): `update_and_filter` returns, in the set-iteration order of the
stable buckets (not sorted by frequency), peaks drawn from the current input list:
every returned stable peak is one of the `detected_peaks` passed in. -/
theorem C8_output_from_input (tr : PeakTracker) (now : ℚ) (peaks : List Region) :
    ∀ r ∈ (tr.update_and_filter now peaks).2, r ∈ peaks := by
  intro r hr
  simp only [PeakTracker.update_and_filter, collectStable] at hr
  obtain ⟨b, _, hget⟩ := List.mem_filterMap.mp hr
  rcases dedupByBucket_mem peaks [] b r hget with h | h
  · exact h
  · simp [dictGet] at h

/-- C8 witness: the 9 Hz peak returned by the tracker in the two-peak scenario is
indeed one of the input peaks. -/
theorem C8_output_from_input_witness :
    (⟨9, 1, 0, 0⟩ : Region) ∈ (PeakTracker.update_and_filter ⟨1, 10, []⟩ 0
        [⟨9, 1, 0, 0⟩, ⟨1, 2, 1, 0⟩]).2 ∧
    (⟨9, 1, 0, 0⟩ : Region) ∈ [(⟨9, 1, 0, 0⟩ : Region), ⟨1, 2, 1, 0⟩] :=
  ⟨by decide, C8_output_from_input ⟨1, 10, []⟩ 0 [⟨9, 1, 0, 0⟩, ⟨1, 2, 1, 0⟩]
    ⟨9, 1, 0, 0⟩ (by decide)⟩

/-! ## `app/core/frequency_observer.py` — FrequencyObserver -/

/-- State of `FrequencyObserver` (src/app/core/frequency_observer.py): per-bucket
activity segments, running power statistics `(Σp, Σp², n)` and last-update times,
all insertion-ordered dicts. -/
structure FrequencyObserver where
  window_sec : ℚ
  min_activity_sec : ℚ
  activity_threshold_db : ℚ
  activity_log : List (ℤ × List (ℚ × ℚ))
  power_stats : List (ℤ × (ℚ × ℚ × ℕ))
  last_update : List (ℤ × ℚ)
deriving DecidableEq

/-- `FrequencyObserver._prune_old_entries` (frequency_observer.py lines 89-107): the
subscript `self.activity_log[freq_bucket]` raises `KeyError` when the bucket was
never seen; otherwise segments whose end is older than the window are popped from
the left, and the power stats are reset when no segment remains. -/
def FrequencyObserver.prune_old_entries (ob : FrequencyObserver) (b : ℤ) (now : ℚ) :
    Except PyExc FrequencyObserver := do
  let segs ← dictGetE ob.activity_log b
  let kept := segs.dropWhile (fun seg => decide (ob.window_sec < now - seg.2))
  let ob' := { ob with activity_log := dictSet ob.activity_log b kept }
  if kept.isEmpty then
    pure { ob' with power_stats := dictSet ob'.power_stats b (0, 0, 0) }
  else pure ob'

/-- `FrequencyObserver.update` (frequency_observer.py lines 41-87), with
`time.time()` passed in as `now`: first sighting initializes the bucket and returns;
otherwise the running stats are updated, the activity segments are extended, started
or closed, `last_update` is set and old entries are pruned. -/
def FrequencyObserver.update (ob : FrequencyObserver) (freq power now : ℚ) :
    Except PyExc FrequencyObserver := do
  let b := pyRound freq
  match dictGet ob.activity_log b with
  | none =>
    pure { ob with
      activity_log := dictSet ob.activity_log b []
      power_stats := dictSet ob.power_stats b (0, 0, 0)
      last_update := dictSet ob.last_update b now }
  | some segs => do
    let stats ← dictGetE ob.power_stats b
    let stats' := (stats.1 + power, stats.2.1 + power * power, stats.2.2 + 1)
    let mean_power := stats'.1 / (stats'.2.2 : ℚ)
    let last_time ← dictGetE ob.last_update b
    let segs' :=
      if mean_power - ob.activity_threshold_db < power then
        if ¬ segs.isEmpty ∧ now - last_time < 1 then
          segs.dropLast ++ [((segs.getLastD (0, 0)).1, now)]
        else segs ++ [(now, now)]
      else
        if ¬ segs.isEmpty ∧ (segs.getLastD (0, 0)).2 = last_time then
          segs.dropLast ++ [((segs.getLastD (0, 0)).1, last_time)]
        else segs
    let ob' := { ob with
      activity_log := dictSet ob.activity_log b segs'
      power_stats := dictSet ob.power_stats b stats'
      last_update := dictSet ob.last_update b now }
    ob'.prune_old_entries b now

/-- Encoding of the comparison `np.sqrt variance < bound` in exact arithmetic:
`np.sqrt` of a negative argument is NaN, whose comparisons are all false; for
nonnegative `variance` and positive `bound` the strict comparison squares both
sides. -/
def sqrtLt (variance bound : ℚ) : Bool :=
  if variance < 0 then false
  else if bound ≤ 0 then false
  else decide (variance < bound ^ 2)

/-- `FrequencyObserver.is_continuous` (frequency_observer.py lines 109-150), with
`time.time()` passed in as `now`: prunes (which can raise `KeyError` for an unseen
bucket), returns false when no segments remain or fewer than 10 power samples exist,
and otherwise tests `duty_cycle > duty_cycle_thresh and cv < cv_thresh`. The
comparison `np.sqrt(variance)/mean < cv_thresh` for `mean > 0` is encoded as
`sqrtLt variance (cv_thresh * mean)`. Since `_prune_old_entries` mutates the
observer in place, the pruned observer is returned alongside the boolean. -/
def FrequencyObserver.is_continuous (ob : FrequencyObserver)
    (freq now duty_cycle_thresh cv_thresh : ℚ) :
    Except PyExc (Bool × FrequencyObserver) := do
  let b := pyRound freq
  let ob ← ob.prune_old_entries b now
  match dictGet ob.activity_log b with
  | none => pure (false, ob)
  | some segs =>
    if segs.isEmpty then pure (false, ob)
    else do
      let total_active := (segs.map (fun seg => seg.2 - seg.1)).sum
      let first_segment_start := (segs.headD (0, 0)).1
      let total_time := min ob.window_sec (now - first_segment_start)
      let duty_cycle := if 0 < total_time then total_active / total_time else 0
      let stats ← dictGetE ob.power_stats b
      if stats.2.2 < 10 then pure (false, ob)
      else
        let mean := stats.1 / (stats.2.2 : ℚ)
        let variance := (stats.2.1 - stats.1 ^ 2 / (stats.2.2 : ℚ)) /
          ((stats.2.2 : ℚ) - 1)
        let cv_below :=
          if 0 < mean then sqrtLt variance (cv_thresh * mean)
          else decide ((0 : ℚ) < cv_thresh)
        pure (decide (duty_cycle_thresh < duty_cycle) && cv_below, ob)

/-- C9: the claim says `is_continuous` returns false, without raising, for any
frequency whose bucket has no activity — including one never passed to `update`. The
code calls `_prune_old_entries` before the membership guard, so for a never-seen
frequency the subscript `self.activity_log[freq_bucket]` raises `KeyError`; the
guard `if freq_bucket not in self.activity_log: return False` on line 127 is
unreachable for such buckets. On a fresh observer, `is_continuous(1000.0)` raises
instead of returning false. -/
theorem C9_is_continuous_keyerror :
    FrequencyObserver.is_continuous ⟨30, 1/10, 6, [], [], []⟩ 1000 5 (7/10) (1/5) =
      Except.error PyExc.keyError := by
  decide

/-! ## `app/sdr.py` — WidebandScanner

The scan-loop model embeds `WidebandScanner`. The parts of the pipeline whose values
are transcendental floating-point DSP — `FFTProcessor.extract_peak_regions`
(FFT/log of an IQ block) and, inside a peak's capture,
`VirtualReceiver.extract_subband` and `is_human_like_envelope` — are inputs of the
model: each visit carries the region list the FFT produced for its block, and a
`DspModel` carries the two functions. The control flow, buffer bookkeeping, tracker,
observer and error propagation are embedded from the source. -/

/-- Capture record enqueued by `_process_detected_peak` (sdr.py lines 292-302);
`datetime.now(timezone.utc)` is modelled by the visit's wall-clock `now`. -/
structure Capture where
  center_frequency : ℚ
  signal_frequency : ℚ
  power_db : ℚ
  bandwidth : ℚ
  timestamp : ℚ
  sample_rate : ℚ
  iq_data : List IQ
deriving DecidableEq

/-- The two pure DSP stages of a peak capture, abstracted as model parameters:
`VirtualReceiver.extract_subband` (mix, FIR filter, polyphase resample) and
`is_human_like_envelope` (src/app/filters/envelope.py). Neither can raise in the
source, and no claim depends on their values. -/
structure DspModel where
  extractSubband : VirtualReceiver → List IQ → List IQ
  isHumanLikeEnvelope : List IQ → ℚ → Bool

/-- Scanner settings used by the embedded scan loop (from `Settings` via
`WidebandScanner.__init__`). -/
structure ScanCfg where
  iq_sample_rate_hz : ℚ
  narrowband_sample_rate_hz : ℚ
  narrowband_capture_duration_sec : ℚ
  min_voice_bandwidth_hz : ℚ

/-- Mutable state of `WidebandScanner` (sdr.py lines 156-164): the running flag, the
per-center buffer dict, the last tuned center, the tracker and observer, plus the
capture queue the scanner appends to. -/
structure ScannerState where
  running : Bool
  center_buffers : List (ℚ × CircularIQBuffer)
  last_center_freq : Option ℚ
  peak_tracker : PeakTracker
  freq_observer : FrequencyObserver
  capture_queue : List Capture
deriving DecidableEq

/-- SDR hardware operations the scanner can issue (recorded, not executed). -/
inductive SdrOp where
  | close
  | tune (freq : ℚ)
  | startStream
  | stopStream
deriving DecidableEq

/-- `WidebandScanner.stop` (sdr.py lines 305-314): a no-op when not running;
otherwise clears the running flag, closes the SDR device, clears the per-center
buffers and clears the tracker. The observer and `last_center_freq` are left as they
are. The SDR operations performed are returned alongside the new state. -/
def WidebandScanner.stop (s : ScannerState) : ScannerState × List SdrOp :=
  if !s.running then (s, [])
  else
    ({ s with
        running := false
        center_buffers := []
        peak_tracker := s.peak_tracker.clear }, [SdrOp.close])

/-- `WidebandScanner._init_center_frequency` (sdr.py lines 210-222): installs a fresh
`CircularIQBuffer` of duration `max(30, 2 · narrowband_capture_duration_sec)` under
the center key — replacing any buffer already stored there — and records the center
as last tuned. -/
def WidebandScanner.init_center_frequency (cfg : ScanCfg) (s : ScannerState)
    (center_freq : ℚ) : ScannerState :=
  { s with
      center_buffers := dictSet s.center_buffers center_freq
        (CircularIQBuffer.mk' cfg.iq_sample_rate_hz
          (max 30 (cfg.narrowband_capture_duration_sec * 2)))
      last_center_freq := some center_freq }

/-- The guard of the scan loop (sdr.py lines 185-187): `_init_center_frequency` runs
whenever the visited center differs from `last_center_freq` — not only on the first
visit to that center. -/
def WidebandScanner.maybe_init_center (cfg : ScanCfg) (s : ScannerState)
    (center_freq : ℚ) : ScannerState :=
  if some center_freq ≠ s.last_center_freq then
    WidebandScanner.init_center_frequency cfg s center_freq
  else s

/-- `WidebandScanner._process_detected_peak` (sdr.py lines 256-303). Raises are
returned as `some e` together with the state as mutated up to the raise. Notes on
fidelity: `is_continuous` mutates the observer via its internal prune; the
`try/except ValueError` around `extract_recent` catches nothing, because the
embedded `extract_recent` has no failure path — while the dict subscript
`self.center_buffers[center_freq]` raises `KeyError`, which `except ValueError` does
not catch; and the `VirtualReceiver` constructor's `ValueError` is raised outside
any local handler. -/
def WidebandScanner.process_detected_peak (dsp : DspModel) (cfg : ScanCfg)
    (s : ScannerState) (center_freq : ℚ) (region : Region) (now : ℚ) :
    ScannerState × Option PyExc :=
  match s.freq_observer.is_continuous region.frequency now (7/10) (1/5) with
  | .error e => (s, some e)
  | .ok res =>
    let s := { s with freq_observer := res.2 }
    if res.1 then (s, none)
    else
      match dictGetE s.center_buffers center_freq with
      | .error e => (s, some e)
      | .ok buf =>
        let wide_iq := buf.extract_recent cfg.narrowband_capture_duration_sec
        match VirtualReceiver.mk' center_freq region.frequency
            cfg.iq_sample_rate_hz cfg.narrowband_sample_rate_hz with
        | .error e => (s, some e)
        | .ok receiver =>
          let narrow_iq := dsp.extractSubband receiver wide_iq
          if !(dsp.isHumanLikeEnvelope narrow_iq cfg.narrowband_sample_rate_hz) then
            (s, none)
          else
            ({ s with capture_queue := s.capture_queue ++ [{
                center_frequency := center_freq
                signal_frequency := region.frequency
                power_db := region.power_db
                bandwidth := region.bandwidth
                timestamp := now
                sample_rate := cfg.narrowband_sample_rate_hz
                iq_data := narrow_iq }] }, none)

/-- The per-peak loop of `_handle_center_iq_block` (sdr.py lines 249-254): update the
observer and process each stable region in turn; an uncaught exception stops the
loop immediately, leaving the remaining regions unprocessed. -/
def WidebandScanner.process_stable_peaks (dsp : DspModel) (cfg : ScanCfg)
    (now center_freq : ℚ) : List Region → ScannerState → ScannerState × Option PyExc
  | [], s => (s, none)
  | region :: rest, s =>
    match s.freq_observer.update region.frequency region.power_db now with
    | .error e => (s, some e)
    | .ok ob =>
      let s' := { s with freq_observer := ob }
      match WidebandScanner.process_detected_peak dsp cfg s' center_freq region now with
      | (s'', some e) => (s'', some e)
      | (s'', none) =>
        WidebandScanner.process_stable_peaks dsp cfg now center_freq rest s''

/-- `WidebandScanner._handle_center_iq_block` (sdr.py lines 224-254): append the
block to the center's buffer (the dict subscript raises `KeyError` when the center
has no buffer), filter the FFT regions by minimum voice bandwidth, confirm stability
with the tracker, and process the stable peaks. -/
def WidebandScanner.handle_center_iq_block (dsp : DspModel) (cfg : ScanCfg)
    (s : ScannerState) (center_freq : ℚ) (iq_block : List IQ)
    (regions : List Region) (now : ℚ) : ScannerState × Option PyExc :=
  match dictGetE s.center_buffers center_freq with
  | .error e => (s, some e)
  | .ok buf =>
    let s := { s with
      center_buffers := dictSet s.center_buffers center_freq (buf.append iq_block) }
    let filtered := regions.filter
      (fun r => decide (cfg.min_voice_bandwidth_hz ≤ r.bandwidth))
    let res := s.peak_tracker.update_and_filter now filtered
    let s := { s with peak_tracker := res.1 }
    if res.2.isEmpty then (s, none)
    else WidebandScanner.process_stable_peaks dsp cfg now center_freq res.2 s

/-- One iteration's worth of inputs for the scan loop: the tuned center, the captured
wideband block, the regions `extract_peak_regions` produced for it, and the wall
clock. -/
structure Visit where
  center : ℚ
  iq_block : List IQ
  regions : List Region
  now : ℚ

/-- The body of `WidebandScanner.start`'s loop (sdr.py lines 180-204) over a finite
schedule of visits: each visit checks the running flag, re-initializes the buffer
when the center changed, and handles the captured block; an uncaught exception stops
the iteration immediately, leaving the remaining visits unprocessed. -/
def WidebandScanner.scan_body (dsp : DspModel) (cfg : ScanCfg) :
    List Visit → ScannerState → ScannerState × Option PyExc
  | [], s => (s, none)
  | v :: rest, s =>
    if !s.running then (s, none)
    else
      let s' := WidebandScanner.maybe_init_center cfg s v.center
      match WidebandScanner.handle_center_iq_block dsp cfg s' v.center v.iq_block
          v.regions v.now with
      | (s'', none) => WidebandScanner.scan_body dsp cfg rest s''
      | (s'', some e) => (s'', some e)

/-- `WidebandScanner.start` (sdr.py lines 166-208): sets the running flag, drives the
loop, and — whether the loop ended normally or by an exception caught by the
top-level `except` (which only logs it) — runs `stop` in the `finally` block. -/
def WidebandScanner.start (dsp : DspModel) (cfg : ScanCfg) (visits : List Visit)
    (s : ScannerState) : ScannerState :=
  let s' := { s with running := true }
  let res := WidebandScanner.scan_body dsp cfg visits s'
  (WidebandScanner.stop res.1).1

/-- Concrete DSP stand-ins for scenarios: identity subband extraction and an
always-true envelope test (neither is reached on the error paths exercised). -/
def exDsp : DspModel := ⟨fun _ iq => iq, fun _ _ => true⟩

/-- Concrete settings: wideband rate 1 Hz, narrowband output rate 8 Hz (greater than
the input rate, so `VirtualReceiver` construction fails), 1 s narrowband capture and
no bandwidth floor. -/
def exCfg : ScanCfg := ⟨1, 8, 1, 0⟩

/-- Fresh observer as constructed by `WidebandScanner.__init__`
(`FrequencyObserver(window_sec=30)`). -/
def exObserver : FrequencyObserver := ⟨30, 1/10, 6, [], [], []⟩

/-- Tracker with `min_hits = 1`, `window_sec = 10`. -/
def exTracker : PeakTracker := ⟨1, 10, []⟩

/-- Fresh scanner state with the running flag set. -/
def exScanner : ScannerState := ⟨true, [], none, exTracker, exObserver, []⟩

/-- Stable region at 5 Hz, 50 dB, 10 Hz bandwidth. -/
def region5 : Region := ⟨5, 50, 0, 10⟩

/-- Stable region at 9000 Hz, 60 dB, 10 Hz bandwidth. -/
def region9000 : Region := ⟨9000, 60, 1, 10⟩

/-- Observer state after its first `update` for bucket 5. -/
def obsAfterFirst : FrequencyObserver :=
  ⟨30, 1/10, 6, [(5, [])], [(5, (0, 0, 0))], [(5, 0)]⟩

/-- Scanner state mid-scan: buffer allocated for center 100, tracker holding one hit
for bucket 5, observer still fresh. -/
def scannerMid : ScannerState :=
  ⟨true, [(100, CircularIQBuffer.mk' 1 30)], some 100, ⟨1, 10, [(5, [0])]⟩,
    exObserver, []⟩

/-- C10: calling `stop` when the scanner is not running leaves every field unchanged
and performs no SDR operation; consequently a second consecutive `stop` always
changes nothing, i.e. `stop` is idempotent. -/
theorem C10_stop_noop_idempotent (s : ScannerState) :
    (s.running = false → WidebandScanner.stop s = (s, [])) ∧
    WidebandScanner.stop (WidebandScanner.stop s).1 =
      ((WidebandScanner.stop s).1, []) := by
  constructor
  · intro h
    simp [WidebandScanner.stop, h]
  · by_cases h : s.running = true
    · simp [WidebandScanner.stop, h]
    · have h' : s.running = false := by revert h; cases s.running <;> simp
      simp [WidebandScanner.stop, h']

/-- C10 witness: on a concrete non-running scanner state, `stop` returns the state
unchanged and performs no SDR operation. -/
theorem C10_stop_noop_idempotent_witness :
    WidebandScanner.stop ⟨false, [], some 100, exTracker, exObserver, []⟩ =
      (⟨false, [], some 100, exTracker, exObserver, []⟩, []) :=
  (C10_stop_noop_idempotent ⟨false, [], some 100, exTracker, exObserver, []⟩).1 rfl

/-- C4 counterexample: the claim says a center's buffer is allocated only on the
first visit and later visits reuse it with its accumulated samples. Scanning center
100 (appending 2 samples), then center 200, then center 100 again: after the first
visit the buffer for 100 holds 2 samples, but on the re-visit
`_init_center_frequency` runs again (200 ≠ 100) and replaces it with a fresh empty
buffer — the previously appended samples are gone. -/
theorem C4_counterexample :
    ((dictGet (WidebandScanner.scan_body exDsp exCfg
        [⟨100, [1, 2], [], 0⟩] exScanner).1.center_buffers 100).map
      CircularIQBuffer.available = some 2) ∧
    ((dictGet (WidebandScanner.scan_body exDsp exCfg
        [⟨100, [1, 2], [], 0⟩, ⟨200, [], [], 1⟩, ⟨100, [], [], 2⟩]
        exScanner).1.center_buffers 100).map
      CircularIQBuffer.available = some 0) := by
  decide

/-- C4 (amended): the buffer for the visited center is freshly allocated whenever
the center differs from the immediately previously scanned one — replacing any
buffer (and its accumulated samples) left from an earlier visit to the same center —
and the state is untouched only when the same center is scanned twice in a row;
`last_center_freq` always ends up at the visited center. -/
theorem C4_realloc_on_center_change (cfg : ScanCfg) (s : ScannerState) (c : ℚ) :
    dictGet (WidebandScanner.maybe_init_center cfg s c).center_buffers c =
      (if s.last_center_freq = some c then dictGet s.center_buffers c
        else some (CircularIQBuffer.mk' cfg.iq_sample_rate_hz
          (max 30 (cfg.narrowband_capture_duration_sec * 2)))) ∧
    (WidebandScanner.maybe_init_center cfg s c).last_center_freq = some c ∧
    (s.last_center_freq = some c → WidebandScanner.maybe_init_center cfg s c = s) := by
  by_cases h : s.last_center_freq = some c
  · refine ⟨?_, ?_, fun _ => ?_⟩ <;>
      simp [WidebandScanner.maybe_init_center, WidebandScanner.init_center_frequency, h]
  · have h' : some c ≠ s.last_center_freq := fun hh => h hh.symm
    refine ⟨?_, ?_, fun hh => absurd hh h⟩ <;>
      simp [WidebandScanner.maybe_init_center, WidebandScanner.init_center_frequency,
        h, h', dictGet_dictSet]

/-- C4 witness: visiting center 100 when `last_center_freq` is already 100 leaves
the scanner state unchanged. -/
theorem C4_realloc_on_center_change_witness :
    WidebandScanner.maybe_init_center exCfg
        ⟨true, [], some 100, exTracker, exObserver, []⟩ 100 =
      ⟨true, [], some 100, exTracker, exObserver, []⟩ :=
  (C4_realloc_on_center_change exCfg
    ⟨true, [], some 100, exTracker, exObserver, []⟩ 100).2.2 rfl

/-- C3 counterexample: with the narrowband output rate (8 Hz) above the input rate
(1 Hz), processing stable peak 5 raises the InvalidRate `ValueError` inside
`_process_detected_peak`; nothing catches it per peak: the scan loop halts with the
error before processing peak 9000 (its observer bucket is never created) and before
visiting center 200 (`last_center_freq` stays 100), and `start`'s top-level handler
merely logs it and stops the scanner — refuting "such per-peak errors never
terminate the scan loop". -/
theorem C3_counterexample :
    (WidebandScanner.scan_body exDsp exCfg
        [⟨100, [1, 2], [region5, region9000], 0⟩, ⟨200, [3], [], 1⟩] exScanner).2 =
      some PyExc.valueError ∧
    (WidebandScanner.scan_body exDsp exCfg
        [⟨100, [1, 2], [region5, region9000], 0⟩, ⟨200, [3], [], 1⟩]
        exScanner).1.last_center_freq = some 100 ∧
    dictGet (WidebandScanner.scan_body exDsp exCfg
        [⟨100, [1, 2], [region5, region9000], 0⟩, ⟨200, [3], [], 1⟩]
        exScanner).1.freq_observer.activity_log 9000 = none ∧
    (WidebandScanner.start exDsp exCfg
        [⟨100, [1, 2], [region5, region9000], 0⟩, ⟨200, [3], [], 1⟩]
        ⟨false, [], none, exTracker, exObserver, []⟩).running = false := by
  decide

/-- C3 (amended): the only per-peak handler is the dead `except ValueError` around
`extract_recent`, so an error actually raised while processing one stable peak —
e.g. the InvalidRate `ValueError` from the `VirtualReceiver` constructor — escapes
the per-peak loop with the remaining stable peaks unprocessed, aborts the scan loop
with the remaining visits unprocessed, and `start` finishes by logging it and
running `stop`. -/
theorem C3_per_peak_error_aborts (dsp : DspModel) (cfg : ScanCfg)
    (now center_freq : ℚ) (region : Region) (rest : List Region)
    (s sPeak : ScannerState) (ob : FrequencyObserver) (e : PyExc)
    (v : Visit) (visits : List Visit) (s₁ s₂ : ScannerState) (e₂ : PyExc)
    (hupd : s.freq_observer.update region.frequency region.power_db now =
      Except.ok ob)
    (hpeak : WidebandScanner.process_detected_peak dsp cfg
      { s with freq_observer := ob } center_freq region now = (sPeak, some e))
    (hrun : s₁.running = true)
    (hhandle : WidebandScanner.handle_center_iq_block dsp cfg
      (WidebandScanner.maybe_init_center cfg s₁ v.center) v.center v.iq_block
      v.regions v.now = (s₂, some e₂)) :
    WidebandScanner.process_stable_peaks dsp cfg now center_freq (region :: rest) s =
      (sPeak, some e) ∧
    WidebandScanner.scan_body dsp cfg (v :: visits) s₁ = (s₂, some e₂) ∧
    WidebandScanner.start dsp cfg (v :: visits) s₁ = (WidebandScanner.stop s₂).1 := by
  have hB : WidebandScanner.scan_body dsp cfg (v :: visits) s₁ = (s₂, some e₂) := by
    simp only [WidebandScanner.scan_body, hrun, Bool.not_true, Bool.false_eq_true,
      if_false]
    rw [hhandle]
  refine ⟨?_, hB, ?_⟩
  · simp only [WidebandScanner.process_stable_peaks]
    rw [hupd]
    simp only []
    rw [hpeak]
  · have hs : { s₁ with running := true } = s₁ := by
      cases s₁
      simp only at hrun
      simp [hrun]
    unfold WidebandScanner.start
    rw [hs]
    show (WidebandScanner.stop
        (WidebandScanner.scan_body dsp cfg (v :: visits) s₁).1).1 =
      (WidebandScanner.stop s₂).1
    rw [hB]

/-- C3 witness: in the concrete mid-scan state, processing stable peaks
[5 Hz, 9000 Hz] stops at the first peak's InvalidRate error with 9000 Hz
unprocessed, the scan loop over centers [100, 200] stops with the same error before
center 200, and `start` ends in the stopped state. -/
theorem C3_per_peak_error_aborts_witness :
    WidebandScanner.process_stable_peaks exDsp exCfg 0 100
        [region5, region9000] scannerMid =
      ({ scannerMid with freq_observer := obsAfterFirst }, some PyExc.valueError) ∧
    WidebandScanner.scan_body exDsp exCfg
        [⟨100, [], [region5], 0⟩, ⟨200, [], [], 1⟩] exScanner =
      ({ scannerMid with freq_observer := obsAfterFirst }, some PyExc.valueError) ∧
    WidebandScanner.start exDsp exCfg [⟨100, [], [region5], 0⟩, ⟨200, [], [], 1⟩]
        exScanner =
      (WidebandScanner.stop { scannerMid with freq_observer := obsAfterFirst }).1 :=
  C3_per_peak_error_aborts exDsp exCfg 0 100 region5 [region9000] scannerMid
    { scannerMid with freq_observer := obsAfterFirst } obsAfterFirst
    PyExc.valueError ⟨100, [], [region5], 0⟩ [⟨200, [], [], 1⟩] exScanner
    { scannerMid with freq_observer := obsAfterFirst } PyExc.valueError
    (by decide) (by decide) (by decide) (by decide)

end Whispers
